import Mathlib

/-!
Shallow embedding of the orbital-trajectory simulator (simulator.py).

The simulator propagates satellites under gravity, J2 oblateness,
atmospheric drag and open-loop thrust, by integrating a nondimensionalized
equation of motion with an adaptive-step solver and re-dimensionalizing
the sampled output.

Modelling conventions:
- numpy float vectors become functions `Fin n → ℝ`; floating point is
  modelled by exact real arithmetic;
- `np.linalg.norm` becomes a square root of a sum of squares (`norm3` for
  3-vectors, `listNorm` for python-style slices of arbitrary length);
- python slicing `y[a:b]` on a length-n array becomes `npSlice n y a b`,
  which, like python, silently truncates out-of-range bounds;
- the physical-constants module is not part of the provided source, so its
  values stay abstract: a `PhysConsts` record is threaded explicitly;
- `scipy.integrate.solve_ivp` is external; it is modelled as an abstract
  `Solver` argument returning an `IVPSol` (a success flag plus the list of
  sampled states), matching the fields the simulator reads (`sol.y`);
- python methods that could mutate their satellite argument return the
  (possibly updated) satellite explicitly; `get_trajectory_ODE` contains
  no assignment to the satellite, so it returns it unchanged, while the
  fixed-step `update_satellite_state` does reassign the fields.
-/

noncomputable section

/-- Physical constants imported by `from constants import *`; the module is
not in the provided source, so the values are abstract parameters. -/
structure PhysConsts where
  MU_EARTH : ℝ
  R_EARTH : ℝ
  J2 : ℝ
  C_D : ℝ
  SA : ℝ
  G0 : ℝ
  ISP : ℝ

/-- Satellite collaborator: the fields the simulator reads (simulator.py
reads id, position, velocity, mass for the adaptive path and thrust for the
fixed-step path). -/
structure Satellite where
  id : ℕ
  position : Fin 3 → ℝ
  velocity : Fin 3 → ℝ
  mass : ℝ
  thrust : Fin 3 → ℝ

/-- Normalized constants dict built in get_trajectory_ODE (line 121). -/
structure NormConsts where
  MU : ℝ
  R_E : ℝ
  J2 : ℝ
  S : ℝ
  G0 : ℝ
  ISP : ℝ
  R0 : ℝ
  RHO : ℝ

/-- Euclidean norm of a 3-vector, as computed by np.linalg.norm. -/
def norm3 (x : Fin 3 → ℝ) : ℝ :=
  Real.sqrt (x 0 ^ 2 + x 1 ^ 2 + x 2 ^ 2)

/-- Euclidean norm of a list of reals (np.linalg.norm on a
possibly-empty 1-d array; the norm of the empty array is sqrt 0 = 0). -/
def listNorm (l : List ℝ) : ℝ :=
  Real.sqrt ((l.map fun x => x ^ 2).sum)

/-- Python slice y[a:b] of a length-n numpy vector: indices a, a+1, ...
up to (but excluding) b that actually exist; out-of-range parts are
silently dropped, so y[7:10] on a 7-vector is the empty slice. -/
def npSlice (n : ℕ) (y : Fin n → ℝ) (a b : ℕ) : List ℝ :=
  (((List.finRange n).map y).drop a).take (b - a)

/-- Matrix-vector product np.dot(A, r) for a 3x3 matrix. -/
def matVec (A : Fin 3 → Fin 3 → ℝ) (x : Fin 3 → ℝ) : Fin 3 → ℝ :=
  fun i => ∑ j : Fin 3, A i j * x j

/-- Position slice y[0:3] of the 7-component state, viewed as a 3-vector. -/
def posOf (y : Fin 7 → ℝ) : Fin 3 → ℝ :=
  fun i => y ⟨i.1, by omega⟩

/-- Velocity slice y[3:6] of the 7-component state, viewed as a 3-vector. -/
def velOf (y : Fin 7 → ℝ) : Fin 3 → ℝ :=
  fun i => y ⟨i.1 + 3, by omega⟩

/-- Simulator.get_atmo_density (lines 34-50): computes the altitude from
the normalized position and the reference radius, then ignores it and
returns the fixed density for 500 km. -/
def get_atmo_density (pc : PhysConsts) (r : Fin 3 → ℝ) (r0 : ℝ) : ℝ :=
  let _altitude := norm3 (fun i => r i * r0) - pc.R_EARTH
  9.983e-13

/-- Simulator.satellite_dynamics (lines 53-93): right-hand side of the
normalized equation of motion.  Note that `thrust` is read from the slice
y[7:10] of the 7-component state, which is empty. -/
def satellite_dynamics (pc : PhysConsts) (tau : ℝ) (y : Fin 7 → ℝ)
    (u : ℝ → Fin 3 → ℝ) (tf : ℝ) (c : NormConsts) : Fin 7 → ℝ :=
  let r := posOf y
  let v := velOf y
  let m := y 6
  let thrust := npSlice 7 y 7 10
  let r_z := r 2
  let r_norm := norm3 r
  let a_g : Fin 3 → ℝ := fun i => -c.MU / r_norm ^ 3 * r i
  let A : Fin 3 → Fin 3 → ℝ :=
    ![![5 * (r_z / r_norm) ^ 2 - 1, 0, 0],
      ![0, 5 * (r_z / r_norm) ^ 2 - 1, 0],
      ![0, 0, 5 * (r_z / r_norm) ^ 2 - 3]]
  let a_j2 : Fin 3 → ℝ :=
    fun i => 1.5 * c.J2 * c.MU * c.R_E ^ 2 / norm3 r ^ 5 * matVec A r i
  let a_u : Fin 3 → ℝ := fun i => u tau i / m
  let a_d : Fin 3 → ℝ := fun i =>
    -1 / 2 * pc.C_D * c.S * (1 / m) * (get_atmo_density pc r c.R0 / c.RHO)
      * norm3 v * v i
  let y_dot : Fin 7 → ℝ := fun i =>
    if h3 : i.1 < 3 then v ⟨i.1, h3⟩
    else if h6 : i.1 < 6 then
      a_g ⟨i.1 - 3, by omega⟩ + a_j2 ⟨i.1 - 3, by omega⟩
        + a_u ⟨i.1 - 3, by omega⟩ + a_d ⟨i.1 - 3, by omega⟩
    else -(listNorm thrust) / (c.G0 * c.ISP)
  fun i => tf * y_dot i

/-- Result of scipy.integrate.solve_ivp, restricted to the fields the
simulator reads: the success flag and the sampled states sol.y (one
7-component state per sample point). -/
structure IVPSol where
  success : Bool
  y : List (Fin 7 → ℝ)

/-- Type of the external adaptive solver (scipy solve_ivp): takes the
right-hand side, the time span, the initial state, the evaluation points
t_eval and the maximum step size. -/
def Solver : Type :=
  (ℝ → (Fin 7 → ℝ) → Fin 7 → ℝ) → (ℝ × ℝ) → (Fin 7 → ℝ) → List ℝ → ℝ → IVPSol

/-- np.linspace(start, stop, num): num equally spaced points including both
endpoints; a single point is the start, zero points is the empty list. -/
def linspace (start stop : ℝ) (num : ℕ) : List ℝ :=
  (List.range num).map fun i : ℕ =>
    if num ≤ 1 then start else start + (i : ℝ) * (stop - start) / ((num : ℝ) - 1)

/-- Normalization scale factors derived in get_trajectory_ODE
(lines 109-115). -/
structure NormalizationScale where
  r0 : ℝ
  s0 : ℝ
  v0 : ℝ
  a0 : ℝ
  m0 : ℝ
  T0 : ℝ
  mu0 : ℝ

/-- Scale factors computed from the initial physical state
(get_trajectory_ODE lines 109-115). -/
def mkScale (pc : PhysConsts) (sat : Satellite) : NormalizationScale :=
  let r0 := norm3 sat.position
  let s0 := 2 * Real.pi * Real.sqrt (r0 ^ 3 / pc.MU_EARTH)
  let v0 := r0 / s0
  let a0 := r0 / s0 ^ 2
  let m0 := sat.mass
  { r0 := r0, s0 := s0, v0 := v0, a0 := a0, m0 := m0,
    T0 := m0 * r0 / s0 ^ 2, mu0 := r0 ^ 3 / s0 ^ 2 }

/-- Normalized initial state y0 = [position/r0, velocity/v0, mass/m0]
(get_trajectory_ODE line 118). -/
def y0_of (pc : PhysConsts) (sat : Satellite) : Fin 7 → ℝ :=
  let sc := mkScale pc sat
  fun i =>
    if h3 : i.1 < 3 then sat.position ⟨i.1, h3⟩ / sc.r0
    else if h6 : i.1 < 6 then sat.velocity ⟨i.1 - 3, by omega⟩ / sc.v0
    else sat.mass / sc.m0

/-- Normalized system parameters (get_trajectory_ODE line 121). -/
def const_of (pc : PhysConsts) (sat : Satellite) : NormConsts :=
  let sc := mkScale pc sat
  { MU := pc.MU_EARTH / sc.mu0, R_E := pc.R_EARTH / sc.r0, J2 := pc.J2,
    S := pc.SA / sc.r0 ^ 2, G0 := pc.G0 / sc.a0, ISP := pc.ISP / sc.s0,
    R0 := sc.r0, RHO := sc.m0 / sc.r0 ^ 3 }

/-- Call to solve_ivp made by get_trajectory_ODE (lines 124-126): span
[0, tf], initial state y0, evaluation points linspace 0 1 (100 tf + 1),
max step 0.001; the extra args (u, tf, const) are closed over in the RHS. -/
def odeCall (pc : PhysConsts) (solver : Solver) (sat : Satellite) (tf : ℕ)
    (u : ℝ → Fin 3 → ℝ) : IVPSol :=
  solver (fun tau y => satellite_dynamics pc tau y u (tf : ℝ) (const_of pc sat))
    (0, (tf : ℝ)) (y0_of pc sat) (linspace 0 1 (100 * tf + 1)) 0.001

/-- Simulator.get_trajectory_ODE (lines 95-129): normalizes the initial
state, integrates, extracts the position rows of sol.y and
re-dimensionalizes them by r0.  The python body never assigns to the
satellite, so the satellite is returned unchanged. -/
def get_trajectory_ODE (pc : PhysConsts) (solver : Solver) (sat : Satellite)
    (tf : ℕ) (u : ℝ → Fin 3 → ℝ) : List (Fin 3 → ℝ) × Satellite :=
  let sol := odeCall pc solver sat tf u
  let r := sol.y.map fun yk => posOf yk
  (r.map fun p => fun i => p i * (mkScale pc sat).r0, sat)

/-- Simulator.run (lines 19-32): propagates every satellite in the list
with the same control function and collects (id, trajectory) pairs; there
is no error handling of any kind around the per-satellite propagation. -/
def run (pc : PhysConsts) (solver : Solver) (sats : List Satellite)
    (u : ℝ → Fin 3 → ℝ) (tf : ℕ) : List (ℕ × List (Fin 3 → ℝ)) :=
  sats.map fun sat => (sat.id, (get_trajectory_ODE pc solver sat tf u).1)

/-- Simulator.update_satellite_state (lines 158-174), the fixed-step
propagator: mutates position, velocity and mass of the satellite; embedded
as a function returning the updated satellite. -/
def update_satellite_state (pc : PhysConsts) (sat : Satellite)
    (time_step : ℝ) : Satellite :=
  let position_next := fun i => sat.velocity i * time_step + sat.position i
  let accel := fun i =>
    -(pc.MU_EARTH / norm3 sat.position ^ 3) * sat.position i
      + sat.thrust i / sat.mass
  let velocity_next := fun i => accel i * time_step + sat.velocity i
  let mass_dot := norm3 sat.thrust / pc.G0 * pc.ISP
  let mass_next := mass_dot * time_step + sat.mass
  { sat with
      position := position_next, velocity := velocity_next,
      mass := mass_next }

/-! Spec-side acceleration terms, written following the words of the
specification (section 4.2) for comparison against `satellite_dynamics`. -/

/-- Gravity term of the spec: central-body inverse-square acceleration,
minus MU over the cubed position norm, times the position. -/
def specGravity (c : NormConsts) (r : Fin 3 → ℝ) : Fin 3 → ℝ :=
  fun i => -c.MU / norm3 r ^ 3 * r i

/-- J2 correction matrix of the spec: the diagonal-like matrix built from
the squared ratio of the z-component of position to the position norm. -/
def specJ2Matrix (r : Fin 3 → ℝ) : Fin 3 → Fin 3 → ℝ :=
  ![![5 * (r 2 / norm3 r) ^ 2 - 1, 0, 0],
    ![0, 5 * (r 2 / norm3 r) ^ 2 - 1, 0],
    ![0, 0, 5 * (r 2 / norm3 r) ^ 2 - 3]]

/-- J2 term of the spec: 1.5 J2 MU R_E^2 over the fifth power of the
position norm, times the correction matrix applied to the position. -/
def specJ2 (c : NormConsts) (r : Fin 3 → ℝ) : Fin 3 → ℝ :=
  fun i => 1.5 * c.J2 * c.MU * c.R_E ^ 2 / norm3 r ^ 5
    * matVec (specJ2Matrix r) r i

/-- Thrust term of the spec: the control-function output at the current
normalized time, divided by the current normalized mass. -/
def specThrustAccel (u : ℝ → Fin 3 → ℝ) (tau m : ℝ) : Fin 3 → ℝ :=
  fun i => u tau i / m

/-- Drag term of the spec: minus one half C_D S (1/m) (density ratio)
times speed times velocity. -/
def specDrag (pc : PhysConsts) (c : NormConsts) (m : ℝ) (r v : Fin 3 → ℝ) :
    Fin 3 → ℝ :=
  fun i => -1 / 2 * pc.C_D * c.S * (1 / m)
    * (get_atmo_density pc r c.R0 / c.RHO) * norm3 v * v i

/-! Helper lemmas shared by several results. -/

/-- Python slice y[7:10] of a 7-component state is empty. -/
theorem npSlice_7_10 (y : Fin 7 → ℝ) : npSlice 7 y 7 10 = [] := by
  simp [npSlice]

/-- Norm of the empty numpy array is zero. -/
theorem listNorm_nil : listNorm [] = 0 := by
  simp [listNorm]

/-- Nonnegativity of the 3-vector norm. -/
theorem norm3_nonneg (x : Fin 3 → ℝ) : 0 ≤ norm3 x :=
  Real.sqrt_nonneg _

/-- Mass component of the dynamics: the code computes it from the empty
slice y[7:10], so it is zero for every input whatsoever. -/
theorem mass_deriv_zero (pc : PhysConsts) (tau : ℝ) (y : Fin 7 → ℝ)
    (u : ℝ → Fin 3 → ℝ) (tf : ℝ) (c : NormConsts) :
    satellite_dynamics pc tau y u tf c 6 = 0 := by
  simp [satellite_dynamics, npSlice_7_10, listNorm_nil,
    show ((6 : Fin 7) : ℕ) = 6 from rfl]

/-- Components 0-2 of the dynamics are tf times the velocity slice. -/
theorem dynamics_pos_component (pc : PhysConsts) (tau : ℝ) (y : Fin 7 → ℝ)
    (u : ℝ → Fin 3 → ℝ) (tf : ℝ) (c : NormConsts) (i : Fin 3) :
    satellite_dynamics pc tau y u tf c ⟨i.1, by omega⟩ = tf * velOf y i := by
  have h3 : i.1 < 3 := i.isLt
  simp [satellite_dynamics, dif_pos h3]

/-- Components 3-5 of the dynamics are tf times the sum of the four
spec acceleration terms. -/
theorem dynamics_vel_component (pc : PhysConsts) (tau : ℝ) (y : Fin 7 → ℝ)
    (u : ℝ → Fin 3 → ℝ) (tf : ℝ) (c : NormConsts) (i : Fin 3) :
    satellite_dynamics pc tau y u tf c ⟨i.1 + 3, by omega⟩ =
      tf * (specGravity c (posOf y) i + specJ2 c (posOf y) i
        + specThrustAccel u tau (y 6) i
        + specDrag pc c (y 6) (posOf y) (velOf y) i) := by
  have h3 : ¬ i.1 + 3 < 3 := by omega
  have h6 : i.1 + 3 < 6 := by omega
  simp [satellite_dynamics, dif_neg h3, dif_pos h6,
    specGravity, specJ2, specJ2Matrix, specThrustAccel, specDrag]

/-- Length of np.linspace is its num argument. -/
theorem linspace_length (s e : ℝ) (n : ℕ) : (linspace s e n).length = n := by
  rw [linspace, List.length_map, List.length_range]

/-! Concrete inputs used by the witnesses and counterexamples. -/

/-- Concrete physical constants (the abstract constants module
instantiated with ones; only the shape matters for the facts below). -/
def pcOne : PhysConsts := ⟨1, 1, 1, 1, 1, 1, 1⟩

/-- Concrete normalized constants. -/
def ncOne : NormConsts := ⟨1, 1, 1, 1, 1, 1, 1, 1⟩

/-- Concrete satellite on the x-axis with unit mass. -/
def satA : Satellite := ⟨1, ![1, 0, 0], ![0, 1, 0], 1, ![0, 0, 0]⟩

/-- Concrete second satellite. -/
def satB : Satellite := ⟨2, ![0, 1, 0], ![1, 0, 0], 1, ![0, 0, 0]⟩

/-- Concrete satellite with zero initial position (degenerate input). -/
def zeroSat : Satellite := ⟨3, ![0, 0, 0], ![0, 7546, 0], 500, ![0, 0, 0]⟩

/-- Zero control function. -/
def uZero : ℝ → Fin 3 → ℝ := fun _ => ![0, 0, 0]

/-- Unit-thrust control function along the x-axis. -/
def uUnit : ℝ → Fin 3 → ℝ := fun _ => ![1, 0, 0]

/-- Concrete state with every component equal to one. -/
def yOnes : Fin 7 → ℝ := fun _ => 1

/-- Solver stub that reports failure and produces no samples. -/
def failSolver : Solver := fun _ _ _ _ _ => ⟨false, []⟩

/-- Solver stub that reports success and produces no samples. -/
def emptyOkSolver : Solver := fun _ _ _ _ _ => ⟨true, []⟩

/-- Solver stub that reports success and echoes the initial state at
every requested sample point. -/
def echoSolver : Solver := fun _ _ y0 teval _ => ⟨true, teval.map fun _ => y0⟩

/-- Constant candidate solution used to witness the mass invariant. -/
def yfConst : ℝ → Fin 7 → ℝ := fun _ _ => 1

/-- Contract of scipy solve_ivp: on success, the solution is sampled at
exactly the requested evaluation points. -/
def SolverMeetsContract (solver : Solver) : Prop :=
  ∀ f span y0 teval ms, (solver f span y0 teval ms).success = true →
    (solver f span y0 teval ms).y.length = teval.length


/-! Claim results. -/

/-- C1: the spec requires the mass derivative to be minus the norm of the
control-function output over (G0 ISP), sourced from the same output as the
thrust-acceleration term.  The code instead takes the thrust for the mass
flow from the empty state slice y[7:10], so the mass derivative is 0 for
every input; at the failing input below the control output has norm 1, so
the claimed derivative is -1 while the code produces 0. -/
theorem C1_mass_flow_ignores_control :
    satellite_dynamics pcOne 0 yOnes uUnit 1 ncOne 6 = 0
      ∧ -(norm3 (uUnit 0)) / (ncOne.G0 * ncOne.ISP) = -1 := by
  constructor
  · exact mass_deriv_zero pcOne 0 yOnes uUnit 1 ncOne
  · simp [uUnit, ncOne, norm3]

/-- C2: for every normalized time, state with nonzero position norm and
nonzero mass, control function, final time and constants, the dynamics
returns tf times [velocity; sum of the four acceleration terms (gravity,
J2, thrust, drag); mass derivative], the position derivative being the
velocity slice. -/
theorem C2_dynamics_four_term_decomposition (pc : PhysConsts) (tau : ℝ)
    (y : Fin 7 → ℝ) (u : ℝ → Fin 3 → ℝ) (tf : ℝ) (c : NormConsts)
    (hr : norm3 (posOf y) ≠ 0) (hm : y 6 ≠ 0) :
    (∀ i : Fin 3,
        satellite_dynamics pc tau y u tf c ⟨i.1, by omega⟩ = tf * velOf y i)
      ∧ (∀ i : Fin 3,
        satellite_dynamics pc tau y u tf c ⟨i.1 + 3, by omega⟩ =
          tf * (specGravity c (posOf y) i + specJ2 c (posOf y) i
            + specThrustAccel u tau (y 6) i
            + specDrag pc c (y 6) (posOf y) (velOf y) i))
      ∧ satellite_dynamics pc tau y u tf c 6 =
          tf * (-(listNorm (npSlice 7 y 7 10)) / (c.G0 * c.ISP)) := by
  refine ⟨fun i => dynamics_pos_component pc tau y u tf c i,
    fun i => dynamics_vel_component pc tau y u tf c i, ?_⟩
  simp [satellite_dynamics, show ((6 : Fin 7) : ℕ) = 6 from rfl]

/-- Witness for C2 at a concrete state with position norm sqrt 3 and
mass 1. -/
theorem C2_dynamics_four_term_decomposition_witness :
    norm3 (posOf yOnes) ≠ 0 ∧ yOnes 6 ≠ 0
      ∧ ((∀ i : Fin 3,
          satellite_dynamics pcOne 0 yOnes uUnit 1 ncOne ⟨i.1, by omega⟩ =
            1 * velOf yOnes i)
        ∧ (∀ i : Fin 3,
          satellite_dynamics pcOne 0 yOnes uUnit 1 ncOne ⟨i.1 + 3, by omega⟩ =
            1 * (specGravity ncOne (posOf yOnes) i + specJ2 ncOne (posOf yOnes) i
              + specThrustAccel uUnit 0 (yOnes 6) i
              + specDrag pcOne ncOne (yOnes 6) (posOf yOnes) (velOf yOnes) i))
        ∧ satellite_dynamics pcOne 0 yOnes uUnit 1 ncOne 6 =
            1 * (-(listNorm (npSlice 7 yOnes 7 10)) / (ncOne.G0 * ncOne.ISP))) := by
  have hr : norm3 (posOf yOnes) ≠ 0 := by
    simp [norm3, posOf, yOnes]
    positivity
  have hm : yOnes 6 ≠ 0 := by
    simp [yOnes]
  exact ⟨hr, hm,
    C2_dynamics_four_term_decomposition pcOne 0 yOnes uUnit 1 ncOne hr hm⟩

/-- C6: the atmospheric density model returns the fixed constant
9.983e-13 regardless of its position and reference-radius arguments. -/
theorem C6_density_constant (pc : PhysConsts) (r rp : Fin 3 → ℝ)
    (r0 r0p : ℝ) :
    get_atmo_density pc r r0 = 9.983e-13
      ∧ get_atmo_density pc r r0 = get_atmo_density pc rp r0p :=
  ⟨rfl, rfl⟩

/-- C9: the adaptive-integration pipeline returns the satellite
collaborator unchanged: its id, position, velocity, mass and thrust fields
are exactly those of the input satellite (the python body contains no
assignment to the satellite). -/
theorem C9_frame_condition (pc : PhysConsts) (solver : Solver)
    (sat : Satellite) (tf : ℕ) (u : ℝ → Fin 3 → ℝ) :
    (get_trajectory_ODE pc solver sat tf u).2 = sat
      ∧ (get_trajectory_ODE pc solver sat tf u).2.id = sat.id
      ∧ (get_trajectory_ODE pc solver sat tf u).2.position = sat.position
      ∧ (get_trajectory_ODE pc solver sat tf u).2.velocity = sat.velocity
      ∧ (get_trajectory_ODE pc solver sat tf u).2.mass = sat.mass
      ∧ (get_trajectory_ODE pc solver sat tf u).2.thrust = sat.thrust :=
  ⟨rfl, rfl, rfl, rfl, rfl, rfl⟩


/-- C3 counterexample: the claim asserts the in-span property fails for
orbit counts below 1, but at tf = 0 (the only natural orbit count below 1
the code accepts) the single sample point 0 produced by
linspace 0 1 (100 * 0 + 1) does lie within the integration span [0, 0]. -/
theorem C3_tf_zero_sample_in_span :
    linspace 0 1 (100 * 0 + 1) = [(0 : ℝ)]
      ∧ (0 : ℝ) ≤ 0 ∧ (0 : ℝ) ≤ ((0 : ℕ) : ℝ) := by
  refine ⟨?_, le_refl 0, by norm_num⟩
  simp [linspace, List.range_succ]

/-- C3 amended: for every natural orbit count tf, every sample point
handed to the variable-step solver (the 100 tf + 1 equally spaced points
of [0, 1]) lies within the integration span [0, tf]; this holds for every
tf of at least 1 as the claim states, and also at tf = 0, so the claimed
failure below 1 does not occur for the integer orbit counts the code
accepts. -/
theorem C3_samples_within_span (tf : ℕ) :
    ∀ t ∈ linspace 0 1 (100 * tf + 1), 0 ≤ t ∧ t ≤ (tf : ℝ) := by
  intro t ht
  simp only [linspace, List.mem_map, List.mem_range] at ht
  obtain ⟨i, hi, rfl⟩ := ht
  by_cases h0 : 100 * tf + 1 ≤ 1
  · have htf : tf = 0 := by omega
    simp [if_pos h0, htf]
  · rw [if_neg h0]
    have htf : 1 ≤ tf := by omega
    have hi2 : i ≤ 100 * tf := by omega
    have h2 : (0 : ℝ) < 100 * (tf : ℝ) := by
      have h3 : (1 : ℝ) ≤ (tf : ℝ) := by exact_mod_cast htf
      linarith
    have hval : (0 : ℝ) + (i : ℝ) * (1 - 0) / (((100 * tf + 1 : ℕ) : ℝ) - 1)
        = (i : ℝ) / (100 * (tf : ℝ)) := by push_cast; ring
    rw [hval]
    have h1 : (i : ℝ) ≤ 100 * (tf : ℝ) := by exact_mod_cast hi2
    refine ⟨by positivity, ?_⟩
    have hle : (i : ℝ) / (100 * (tf : ℝ)) ≤ 1 := by
      rw [div_le_one h2]; exact h1
    have htfR : (1 : ℝ) ≤ (tf : ℝ) := by exact_mod_cast htf
    linarith

/-- Witness for C3 at tf = 1 and the sample point 0. -/
theorem C3_samples_within_span_witness :
    (0 : ℝ) ∈ linspace 0 1 (100 * 1 + 1)
      ∧ (0 ≤ (0 : ℝ) ∧ (0 : ℝ) ≤ ((1 : ℕ) : ℝ)) := by
  have hmem : (0 : ℝ) ∈ linspace 0 1 (100 * 1 + 1) := by
    simp only [linspace, List.mem_map, List.mem_range]
    exact ⟨0, by norm_num, by norm_num⟩
  exact ⟨hmem, C3_samples_within_span 1 0 hmem⟩

/-- C4: whenever the solver succeeds (and meets the scipy contract that a
successful solution is sampled at exactly the requested evaluation
points), the returned trajectory has exactly 100 tf + 1 samples. -/
theorem C4_output_cardinality (pc : PhysConsts) (solver : Solver)
    (sat : Satellite) (tf : ℕ) (u : ℝ → Fin 3 → ℝ)
    (hc : SolverMeetsContract solver)
    (hs : (odeCall pc solver sat tf u).success = true) :
    (get_trajectory_ODE pc solver sat tf u).1.length = 100 * tf + 1 := by
  have h := hc _ _ _ _ _ hs
  rw [linspace_length] at h
  simpa [get_trajectory_ODE, odeCall] using h

/-- Witness for C4 with the echo solver at tf = 1. -/
theorem C4_output_cardinality_witness :
    SolverMeetsContract echoSolver
      ∧ (odeCall pcOne echoSolver satA 1 uZero).success = true
      ∧ (get_trajectory_ODE pcOne echoSolver satA 1 uZero).1.length =
          100 * 1 + 1 := by
  have hc : SolverMeetsContract echoSolver := by
    intro f span y0 teval ms _
    simp [echoSolver]
  have hs : (odeCall pcOne echoSolver satA 1 uZero).success = true := rfl
  exact ⟨hc, hs, C4_output_cardinality pcOne echoSolver satA 1 uZero hc hs⟩

/-- C5: for an initial state with nonzero position norm and nonzero mass
(and a positive gravitational parameter), multiplying the normalized
initial position by r0 and the normalized initial velocity by v0 = r0/s0
recovers the physical position and velocity exactly, and the
re-dimensionalization step multiplies every normalized position sample by
r0. -/
theorem C5_normalization_roundtrip (pc : PhysConsts) (sat : Satellite)
    (hr : norm3 sat.position ≠ 0) (hm : sat.mass ≠ 0)
    (hmu : 0 < pc.MU_EARTH) :
    (∀ i : Fin 3,
        y0_of pc sat ⟨i.1, by omega⟩ * (mkScale pc sat).r0 = sat.position i
          ∧ y0_of pc sat ⟨i.1 + 3, by omega⟩ * (mkScale pc sat).v0 =
              sat.velocity i)
      ∧ y0_of pc sat 6 * (mkScale pc sat).m0 = sat.mass
      ∧ ∀ (solver : Solver) (tf : ℕ) (u : ℝ → Fin 3 → ℝ),
          (get_trajectory_ODE pc solver sat tf u).1 =
            (odeCall pc solver sat tf u).y.map
              fun yk => fun i => posOf yk i * (mkScale pc sat).r0 := by
  have hr0 : (0 : ℝ) < norm3 sat.position :=
    lt_of_le_of_ne (norm3_nonneg sat.position) (Ne.symm hr)
  have hs0 : (0 : ℝ) < 2 * Real.pi * Real.sqrt (norm3 sat.position ^ 3 / pc.MU_EARTH) := by
    have hq : (0 : ℝ) < norm3 sat.position ^ 3 / pc.MU_EARTH :=
      div_pos (pow_pos hr0 3) hmu
    have := Real.sqrt_pos.mpr hq
    have hpi := Real.pi_pos
    positivity
  have hv0 : (mkScale pc sat).v0 ≠ 0 := by
    simp only [mkScale]
    exact ne_of_gt (div_pos hr0 hs0)
  refine ⟨fun i => ⟨?_, ?_⟩, ?_, fun solver tf u => ?_⟩
  · have h3 : i.1 < 3 := i.isLt
    simp only [y0_of, dif_pos h3, mkScale]
    rw [div_mul_cancel₀ _ (ne_of_gt hr0)]
  · have h3 : ¬ i.1 + 3 < 3 := by omega
    have h6 : i.1 + 3 < 6 := by omega
    simp only [y0_of, dif_neg h3, dif_pos h6]
    rw [div_mul_cancel₀ _ hv0]
    simp
  · have h3 : ¬ (6 : ℕ) < 3 := by omega
    have h6 : ¬ (6 : ℕ) < 6 := by omega
    simp only [y0_of, show ((6 : Fin 7) : ℕ) = 6 from rfl, dif_neg h3,
      dif_neg h6, mkScale]
    rw [div_mul_cancel₀ _ hm]
  · simp [get_trajectory_ODE]

/-- Witness for C5 at the concrete satellite on the x-axis with unit
mass, with unit gravitational parameter. -/
theorem C5_normalization_roundtrip_witness :
    norm3 satA.position ≠ 0 ∧ satA.mass ≠ 0 ∧ (0 : ℝ) < pcOne.MU_EARTH
      ∧ ((∀ i : Fin 3,
          y0_of pcOne satA ⟨i.1, by omega⟩ * (mkScale pcOne satA).r0 =
              satA.position i
            ∧ y0_of pcOne satA ⟨i.1 + 3, by omega⟩ * (mkScale pcOne satA).v0 =
                satA.velocity i)
        ∧ y0_of pcOne satA 6 * (mkScale pcOne satA).m0 = satA.mass
        ∧ ∀ (solver : Solver) (tf : ℕ) (u : ℝ → Fin 3 → ℝ),
            (get_trajectory_ODE pcOne solver satA tf u).1 =
              (odeCall pcOne solver satA tf u).y.map
                fun yk => fun i => posOf yk i * (mkScale pcOne satA).r0) := by
  have hr : norm3 satA.position ≠ 0 := by
    simp [norm3, satA]
  have hm : satA.mass ≠ 0 := by
    simp [satA]
  have hmu : (0 : ℝ) < pcOne.MU_EARTH := by
    simp [pcOne]
  exact ⟨hr, hm, hmu, C5_normalization_roundtrip pcOne satA hr hm hmu⟩


/-- C7 counterexample: the run entry point does not report integration
failures.  With two satellites and a solver that fails for every call, the
result of run is literally identical to the result with a succeeding
solver producing the same samples: the success flag is dropped and the
output map carries no error entry, so the failure is not reported per
satellite (nor anywhere else). -/
theorem C7_failure_not_reported :
    run pcOne failSolver [satA, satB] uZero 1 =
        run pcOne emptyOkSolver [satA, satB] uZero 1
      ∧ run pcOne failSolver [satA, satB] uZero 1 = [(1, []), (2, [])] := by
  constructor <;> rfl

/-- C7 amended: one satellite's integration failure indeed does not abort
the propagation of the others (run maps over every satellite in the list
independently), but no failure is reported anywhere: the output of run
depends only on the sample lists sol.y produced by the solver and not on
its success flags, and contains exactly the (id, trajectory) pairs. -/
theorem C7_satellite_scoped_no_report (pc : PhysConsts) (s1 s2 : Solver)
    (sats : List Satellite) (u : ℝ → Fin 3 → ℝ) (tf : ℕ)
    (hy : ∀ f span y0 teval ms, (s1 f span y0 teval ms).y =
      (s2 f span y0 teval ms).y) :
    run pc s1 sats u tf = run pc s2 sats u tf
      ∧ run pc s1 sats u tf =
          sats.map fun sat => (sat.id, (get_trajectory_ODE pc s1 sat tf u).1) := by
  refine ⟨?_, rfl⟩
  have hfun : ∀ sat : Satellite,
      (get_trajectory_ODE pc s1 sat tf u).1 =
        (get_trajectory_ODE pc s2 sat tf u).1 := by
    intro sat
    simp only [get_trajectory_ODE, odeCall]
    rw [hy]
  simp only [run]
  exact List.map_congr_left fun sat _ => by rw [hfun sat]

/-- Witness for the amended C7 with a failing solver and a succeeding
solver producing the same (empty) samples. -/
theorem C7_satellite_scoped_no_report_witness :
    (∀ f span y0 teval ms, (failSolver f span y0 teval ms).y =
        (emptyOkSolver f span y0 teval ms).y)
      ∧ (run pcOne failSolver [satA, satB] uZero 1 =
            run pcOne emptyOkSolver [satA, satB] uZero 1
        ∧ run pcOne failSolver [satA, satB] uZero 1 =
            [satA, satB].map fun sat =>
              (sat.id, (get_trajectory_ODE pcOne failSolver sat 1 uZero).1)) := by
  have hy : ∀ f span y0 teval ms, (failSolver f span y0 teval ms).y =
      (emptyOkSolver f span y0 teval ms).y := fun _ _ _ _ _ => rfl
  exact ⟨hy,
    C7_satellite_scoped_no_report pcOne failSolver emptyOkSolver
      [satA, satB] uZero 1 hy⟩

/-- C8 counterexample: with a zero initial position the propagation does
not fail fast.  The concrete degenerate satellite has position norm 0,
yet the pipeline (with a solver echoing the initial state at every sample
point) returns an ordinary 101-sample trajectory and no error of any
kind; nothing in the code checks the position norm. -/
theorem C8_zero_position_no_failfast :
    norm3 zeroSat.position = 0
      ∧ (get_trajectory_ODE pcOne echoSolver zeroSat 1 uZero).1.length = 101 := by
  constructor
  · simp [norm3, zeroSat]
  · simp [get_trajectory_ODE, odeCall, echoSolver, linspace_length]

/-- C8 amended: for every satellite whose initial position norm is zero,
the adaptive propagation performs no check and does not fail: it still
hands the solver an initial state (whose components are divisions by the
zero norm) and returns one position sample per solver sample, every
returned coordinate being the normalized value times r0 = 0 (nan in
floating point), with no reported error. -/
theorem C8_zero_position_silently_propagates (pc : PhysConsts)
    (solver : Solver) (sat : Satellite) (tf : ℕ) (u : ℝ → Fin 3 → ℝ)
    (h0 : norm3 sat.position = 0) :
    (get_trajectory_ODE pc solver sat tf u).1.length =
        (odeCall pc solver sat tf u).y.length
      ∧ ∀ p ∈ (get_trajectory_ODE pc solver sat tf u).1, ∀ i : Fin 3, p i = 0 := by
  constructor
  · simp [get_trajectory_ODE]
  · intro p hp i
    simp only [get_trajectory_ODE, List.map_map, List.mem_map,
      Function.comp] at hp
    obtain ⟨yk, hyk, rfl⟩ := hp
    have hr0 : (mkScale pc sat).r0 = 0 := by
      simp only [mkScale]
      exact h0
    rw [hr0]
    exact mul_zero _

/-- Witness for the amended C8 at the concrete zero-position satellite. -/
theorem C8_zero_position_silently_propagates_witness :
    norm3 zeroSat.position = 0
      ∧ ((get_trajectory_ODE pcOne echoSolver zeroSat 1 uZero).1.length =
            (odeCall pcOne echoSolver zeroSat 1 uZero).y.length
        ∧ ∀ p ∈ (get_trajectory_ODE pcOne echoSolver zeroSat 1 uZero).1,
            ∀ i : Fin 3, p i = 0) := by
  have h0 : norm3 zeroSat.position = 0 := by
    simp [norm3, zeroSat]
  exact ⟨h0,
    C8_zero_position_silently_propagates pcOne echoSolver zeroSat 1 uZero h0⟩

/-- C10: for a satellite with nonzero mass the normalized initial mass
component is exactly 1; the dynamics takes the mass-flow thrust from the
state slice y[7:10], which is empty, so the mass derivative is 0 for every
input; and therefore any function solving the mass-component ODE from that
initial value keeps the normalized mass exactly 1 at all times, for every
control function. -/
theorem C10_mass_component_invariant (pc : PhysConsts) (sat : Satellite)
    (hm : sat.mass ≠ 0) (u : ℝ → Fin 3 → ℝ) (tf : ℝ) (c : NormConsts)
    (yf : ℝ → Fin 7 → ℝ)
    (hsol : ∀ t : ℝ, HasDerivAt (fun s : ℝ => yf s 6)
      (satellite_dynamics pc t (yf t) u tf c 6) t)
    (h0 : yf 0 6 = y0_of pc sat 6) :
    y0_of pc sat 6 = 1
      ∧ (∀ (tau : ℝ) (y : Fin 7 → ℝ), npSlice 7 y 7 10 = []
          ∧ satellite_dynamics pc tau y u tf c 6 = 0)
      ∧ ∀ t : ℝ, yf t 6 = 1 := by
  have h1 : y0_of pc sat 6 = 1 := by
    have h3 : ¬ (6 : ℕ) < 3 := by omega
    have h6 : ¬ (6 : ℕ) < 6 := by omega
    simp only [y0_of, show ((6 : Fin 7) : ℕ) = 6 from rfl, dif_neg h3,
      dif_neg h6, mkScale]
    exact div_self hm
  refine ⟨h1, fun tau y => ⟨npSlice_7_10 y, mass_deriv_zero pc tau y u tf c⟩, ?_⟩
  have hd : ∀ t : ℝ, HasDerivAt (fun s : ℝ => yf s 6) 0 t := by
    intro t
    have h := hsol t
    rwa [mass_deriv_zero] at h
  have hdiff : Differentiable ℝ (fun s : ℝ => yf s 6) :=
    fun t => (hd t).differentiableAt
  have hderiv : ∀ t : ℝ, deriv (fun s : ℝ => yf s 6) t = 0 :=
    fun t => (hd t).deriv
  intro t
  calc yf t 6 = yf 0 6 := is_const_of_deriv_eq_zero hdiff hderiv t 0
    _ = y0_of pc sat 6 := h0
    _ = 1 := h1

/-- Witness for C10 with the constant-one candidate solution (the mass
derivative is zero at every input, so the constant function solves the
mass-component ODE). -/
theorem C10_mass_component_invariant_witness :
    satA.mass ≠ 0
      ∧ (∀ t : ℝ, HasDerivAt (fun s : ℝ => yfConst s 6)
          (satellite_dynamics pcOne t (yfConst t) uZero 1 ncOne 6) t)
      ∧ yfConst 0 6 = y0_of pcOne satA 6
      ∧ (y0_of pcOne satA 6 = 1
        ∧ (∀ (tau : ℝ) (y : Fin 7 → ℝ), npSlice 7 y 7 10 = []
            ∧ satellite_dynamics pcOne tau y uZero 1 ncOne 6 = 0)
        ∧ ∀ t : ℝ, yfConst t 6 = 1) := by
  have hm : satA.mass ≠ 0 := by
    simp [satA]
  have hsol : ∀ t : ℝ, HasDerivAt (fun s : ℝ => yfConst s 6)
      (satellite_dynamics pcOne t (yfConst t) uZero 1 ncOne 6) t := by
    intro t
    rw [mass_deriv_zero]
    exact hasDerivAt_const t 1
  have h0 : yfConst 0 6 = y0_of pcOne satA 6 := by
    have h3 : ¬ (6 : ℕ) < 3 := by omega
    have h6 : ¬ (6 : ℕ) < 6 := by omega
    simp [yfConst, y0_of, show ((6 : Fin 7) : ℕ) = 6 from rfl, dif_neg h3,
      dif_neg h6, mkScale, satA]
  exact ⟨hm, hsol, h0,
    C10_mass_component_invariant pcOne satA hm uZero 1 ncOne yfConst hsol h0⟩

end
